import Mathlib

/-!
Shallow embedding of the `simple-api-lib` repository (TypeScript).

The repository has four relevant pieces:
* `Application` (src/unnamed/part_001): a lifecycle container with two
  insertion-ordered lists of module instances (`initModules`, `modules`) and
  operations `use`, `set`, `run`, `exit`.
* `Module` (README code block): a wrapper holding a constructor reference,
  whose `default(...args)` instantiates it.
* `BaseController` (src/src/app/controllers/BaseController.ts): `build()`
  returns `new Router({ prefix: this.path || "/" })`.
* `toPrettyObject` (src/unnamed/part_000) used by the `File` schema
  (src/src/definitions/Models/File/File.ts) as the `toObject`/`toJSON`
  transform: renames the `_id` field to `id`.

Modelling choices:
* A JS constructor is identified by a natural number; constructor arguments
  are a list of naturals.  A constructed module instance is the triple
  (allocation id, constructor, arguments); the allocation id models JS object
  identity — each `new` yields a fresh object — and is threaded through the
  application state as `nextAlloc`.
* Side effects are modelled as an event trace: one event per constructor call
  and one per lifecycle-entry-point (`default()`) invocation.
* Exceptions are modelled with an environment `Env` saying which constructor
  calls and which instances' `default()` throw (and which error value, a
  natural number, they throw).  An operation returns the state after it, the
  trace of events that happened, and `some e` when error `e` propagates out.
-/

namespace SimpleApi

/-- A constructed module instance: `new c(...args)` at allocation `allocId`. -/
structure Instance where
  allocId : Nat
  ctor : Nat
  args : List Nat
deriving DecidableEq, Repr

/-- Observable events: a constructor call, or a lifecycle entry-point
(`default()`) invocation on an instance. -/
inductive Event where
  | constructed (i : Instance)
  | entryInvoked (i : Instance)
deriving DecidableEq, Repr

/-- Behaviour of the consumer-supplied module code: which constructor calls
throw (and what), and which instances' `default()` throws (and what). -/
structure Env where
  ctorThrows : Nat → List Nat → Option Nat
  defaultThrows : Instance → Option Nat

/-- The `Application` container state: the two insertion-ordered sequences
plus the allocation counter modelling object identity. -/
structure App where
  initModules : List Instance
  modules : List Instance
  nextAlloc : Nat
deriving DecidableEq, Repr

/-- A freshly constructed `Application`: both sequences empty. -/
def App.mkNew : App := ⟨[], [], 0⟩

/-- Outcome of one operation: state after, events that happened during it, and
the error that propagated out of it (`none` on normal return). -/
structure Result where
  app : App
  trace : List Event
  error : Option Nat
deriving DecidableEq, Repr

/-- `use(module, ...args)`: `const m = new module(...args); this.modules.push(m);`.
If the constructor throws, nothing was pushed and the error propagates. -/
def Application.use (env : Env) (app : App) (c : Nat) (args : List Nat) : Result :=
  match env.ctorThrows c args with
  | some e => ⟨app, [], some e⟩
  | none =>
    let m : Instance := ⟨app.nextAlloc, c, args⟩
    ⟨{ app with modules := app.modules ++ [m], nextAlloc := app.nextAlloc + 1 },
     [Event.constructed m], none⟩

/-- `set(module, ...args)`:
`const m = new module(...args); this.initModules.push(m); m.default();`.
The push happens before the entry-point call, so if `default()` throws the
instance is already in `initModules`; the error propagates. -/
def Application.set (env : Env) (app : App) (c : Nat) (args : List Nat) : Result :=
  match env.ctorThrows c args with
  | some e => ⟨app, [], some e⟩
  | none =>
    let m : Instance := ⟨app.nextAlloc, c, args⟩
    let app' := { app with initModules := app.initModules ++ [m],
                           nextAlloc := app.nextAlloc + 1 }
    ⟨app', [Event.constructed m, Event.entryInvoked m], env.defaultThrows m⟩

/-- The loop body of `run`: `for (const m of this.modules) { m.default(); }`.
A throwing `default()` aborts the loop and the error propagates. -/
def runModules (env : Env) : List Instance → List Event × Option Nat
  | [] => ([], none)
  | m :: rest =>
    match env.defaultThrows m with
    | some e => ([Event.entryInvoked m], some e)
    | none =>
      let r := runModules env rest
      (Event.entryInvoked m :: r.1, r.2)

/-- `run()`: iterates `this.modules` in order, invoking each `default()`.
The state is not modified. -/
def Application.run (env : Env) (app : App) : Result :=
  let r := runModules env app.modules
  ⟨app, r.1, r.2⟩

/-- `exit(exitCode?)`: `process.exit(exitCode ? exitCode : 0)`.  Returns the
status passed to `process.exit`; `none` models calling with no argument
(`undefined`, which is falsy), and a zero argument is also falsy. -/
def Application.exit (exitCode : Option Int) : Int :=
  match exitCode with
  | some c => if c = 0 then 0 else c
  | none => 0

/-- The `Module` wrapper (README): holds a constructor reference `c`. -/
structure Module where
  c : Nat

/-- `Module.default(...args)`: `return new this.c(...args);` — instantiates the
held constructor with the given arguments.  `alloc` is the allocation id of
the fresh object produced by `new`. -/
def Module.default (m : Module) (alloc : Nat) (args : List Nat) : Instance :=
  ⟨alloc, m.c, args⟩

/-- A registration-phase command: one `use` or one `set` call. -/
inductive Cmd where
  | use (c : Nat) (args : List Nat)
  | set (c : Nat) (args : List Nat)
deriving DecidableEq, Repr

/-- Execute a single registration command. -/
def execCmd (env : Env) (app : App) : Cmd → Result
  | Cmd.use c args => Application.use env app c args
  | Cmd.set c args => Application.set env app c args

/-- Execute a sequence of registration commands, stopping at the first one
whose error propagates (an uncaught exception aborts the caller's sequence). -/
def execCmds (env : Env) (app : App) : List Cmd → Result
  | [] => ⟨app, [], none⟩
  | cmd :: rest =>
    let r := execCmd env app cmd
    match r.error with
    | some e => ⟨r.app, r.trace, some e⟩
    | none =>
      let r' := execCmds env r.app rest
      ⟨r'.app, r.trace ++ r'.trace, r'.error⟩

/-- The plain object produced when a `File` document is serialized
(`toObject()` / `toJSON()`), before/after the schema transform.  `_id` is the
internal identifier (a Mongo ObjectId — an object reference, hence truthy in
JS exactly when the field is present); `id` is the field the transform adds.
The remaining fields of the document are carried along untouched. -/
structure JsObj where
  _id : Option Nat
  id : Option Nat
  name : String
  content : List Nat
  createdAt : Nat
  updatedAt : Nat
deriving DecidableEq, Repr

/-- `toPrettyObject(_, obj)` (src/unnamed/part_000):
`if (obj._id) { obj.id = obj._id; delete obj._id; } return obj;`.
The first parameter is ignored by the source. -/
def toPrettyObject {α : Type} (_doc : α) (obj : JsObj) : JsObj :=
  if obj._id.isSome then
    { obj with id := obj._id, _id := none }
  else obj

/-- A persisted `File` document.  Every persisted mongoose document carries an
internal identifier `_id`; `FileSchema` adds `name`, `content` and (via
`timestamps: true`) `createdAt`/`updatedAt`. -/
structure FileDocument where
  _id : Nat
  name : String
  content : List Nat
  createdAt : Nat
  updatedAt : Nat
deriving DecidableEq, Repr

/-- The raw plain object holding the document's fields, before the schema's
`toObject`/`toJSON` transform runs. -/
def FileDocument.rawObject (d : FileDocument) : JsObj :=
  ⟨some d._id, none, d.name, d.content, d.createdAt, d.updatedAt⟩

/-- `doc.toObject()`: mongoose builds the plain object and applies the
schema's `toObject.transform`, which `FileSchema` sets to `toPrettyObject`. -/
def FileDocument.toObject (d : FileDocument) : JsObj :=
  toPrettyObject d d.rawObject

/-- `doc.toJSON()`: same transform, configured under `toJSON` in `FileSchema`. -/
def FileDocument.toJSON (d : FileDocument) : JsObj :=
  toPrettyObject d d.rawObject

/-- A `koa-router` `Router` as far as this library configures it: the value of
the `prefix` option it was constructed with, plus an allocation id modelling
JS object identity (each `new Router(...)` is a fresh object). -/
structure Router where
  allocId : Nat
  mountPath : String
deriving DecidableEq, Repr

/-- JS `a || b` on an optional string: `undefined` and `""` are falsy. -/
def jsStringOr (v : Option String) (dflt : String) : String :=
  match v with
  | some s => if s = "" then dflt else s
  | none => dflt

/-- `BaseController`: optional `path` and `unsecuredRoutes` fields. -/
structure BaseController where
  path : Option String
  unsecuredRoutes : Option (List String)
deriving DecidableEq, Repr

/-- `build()`: `return new Router({ prefix: this.path || "/" });`.  Allocation
of the fresh `Router` object is modelled by threading a counter `alloc`:
the call returns the new router and the next counter value. -/
def BaseController.build (ctrl : BaseController) (alloc : Nat) : Router × Nat :=
  (⟨alloc, jsStringOr ctrl.path "/"⟩, alloc + 1)

/-- An environment in which no constructor and no entry point throws. -/
def envOk : Env := ⟨fun _ _ => none, fun _ => none⟩

/-- An environment with some throwing behaviour: constructor `1` throws error
`7`; `default()` of instances of constructor `2` throws `8`, of constructor
`3` throws `9`; everything else succeeds. -/
def envThrow : Env :=
  ⟨fun c _ => if c = 1 then some 7 else none,
   fun i => if i.ctor = 2 then some 8 else if i.ctor = 3 then some 9 else none⟩

/-- The instances produced by a sequence of constructor calls
`(ctor, args)` starting at allocation id `n`. -/
def allocFrom : Nat → List (Nat × List Nat) → List Instance
  | _, [] => []
  | n, (c, a) :: rest => ⟨n, c, a⟩ :: allocFrom (n + 1) rest

/-- Allocation sanity of an application state: every registered instance was
allocated below the counter, and no two registered instances (across both
sequences) share an allocation id — i.e. they are distinct JS objects. -/
def wellAlloc (app : App) : Prop :=
  (∀ i ∈ app.initModules ++ app.modules, i.allocId < app.nextAlloc)
    ∧ ((app.initModules ++ app.modules).map Instance.allocId).Nodup

/-! ## Theorems -/

/-- When no entry point throws, the `run` loop invokes every module in list
order and returns normally. -/
theorem runModules_all_ok (env : Env) (ms : List Instance)
    (h : ∀ i ∈ ms, env.defaultThrows i = none) :
    runModules env ms = (ms.map Event.entryInvoked, none) := by
  induction ms with
  | nil => rfl
  | cons m rest ih =>
    have hm : env.defaultThrows m = none := h m (by simp)
    simp [runModules, hm, ih (fun i hi => h i (by simp [hi]))]

/-- If the entry points before `m` succeed and `m`'s entry point throws `e`,
the `run` loop stops at `m` and error `e` propagates. -/
theorem runModules_stops_at_throw (env : Env) (pre : List Instance)
    (m : Instance) (post : List Instance) (e : Nat)
    (hpre : ∀ x ∈ pre, env.defaultThrows x = none)
    (hm : env.defaultThrows m = some e) :
    runModules env (pre ++ m :: post)
      = (pre.map Event.entryInvoked ++ [Event.entryInvoked m], some e) := by
  induction pre with
  | nil => simp [runModules, hm]
  | cons x xs ih =>
    have hx : env.defaultThrows x = none := hpre x (by simp)
    simp [runModules, hx, ih (fun y hy => hpre y (by simp [hy]))]

/-- `allocFrom` constructs exactly the requested constructor/argument pairs,
in order. -/
theorem allocFrom_ctor_args (n : Nat) (reqs : List (Nat × List Nat)) :
    (allocFrom n reqs).map (fun i => (i.ctor, i.args)) = reqs := by
  induction reqs generalizing n with
  | nil => rfl
  | cons r rest ih =>
    obtain ⟨c, a⟩ := r
    simp [allocFrom, ih]

/-- Every allocation id produced by `allocFrom n` is at least `n`. -/
theorem allocFrom_allocId_ge (n : Nat) (reqs : List (Nat × List Nat)) :
    ∀ i ∈ allocFrom n reqs, n ≤ i.allocId := by
  induction reqs generalizing n with
  | nil => simp [allocFrom]
  | cons r rest ih =>
    obtain ⟨c, a⟩ := r
    intro i hi
    rw [allocFrom, List.mem_cons] at hi
    rcases hi with h | h
    · subst h; exact Nat.le_refl n
    · exact Nat.le_trans (Nat.le_succ n) (ih (n + 1) i h)

/-- The allocation ids produced by `allocFrom` are pairwise distinct. -/
theorem allocFrom_nodup (n : Nat) (reqs : List (Nat × List Nat)) :
    ((allocFrom n reqs).map Instance.allocId).Nodup := by
  induction reqs generalizing n with
  | nil => simp [allocFrom]
  | cons r rest ih =>
    obtain ⟨c, a⟩ := r
    rw [allocFrom, List.map_cons, List.nodup_cons]
    refine ⟨?_, ih (n + 1)⟩
    intro hmem
    rw [List.mem_map] at hmem
    obtain ⟨i, hi, hEq⟩ := hmem
    have := allocFrom_allocId_ge (n + 1) rest i hi
    simp at hEq
    omega

/-- Executing a list of `use` registrations, none of whose constructors
throws, appends exactly the corresponding instances to `modules` (fresh
allocation ids from `nextAlloc` on), emits one construction event each, and
returns normally. -/
theorem execCmds_useAll (env : Env) (app : App) (reqs : List (Nat × List Nat))
    (h : ∀ r ∈ reqs, env.ctorThrows r.1 r.2 = none) :
    execCmds env app (reqs.map fun r => Cmd.use r.1 r.2)
      = ⟨⟨app.initModules, app.modules ++ allocFrom app.nextAlloc reqs,
          app.nextAlloc + reqs.length⟩,
         (allocFrom app.nextAlloc reqs).map Event.constructed, none⟩ := by
  induction reqs generalizing app with
  | nil => simp [execCmds, allocFrom]
  | cons r rest ih =>
    obtain ⟨c, a⟩ := r
    have hc : env.ctorThrows c a = none := h (c, a) (by simp)
    have hrest : ∀ r ∈ rest, env.ctorThrows r.1 r.2 = none :=
      fun r hr => h r (by simp [hr])
    simp [execCmds, execCmd, Application.use, hc, ih _ hrest, allocFrom]
    omega

/-- The allocation counter never clashes: `nextAlloc` is not the id of any
registered instance. -/
theorem fresh_not_mem_allocIds (app : App) (hw : wellAlloc app) :
    app.nextAlloc ∉ (app.initModules ++ app.modules).map Instance.allocId := by
  intro hmem
  rw [List.mem_map] at hmem
  obtain ⟨i, hi, hEq⟩ := hmem
  have := hw.1 i hi
  omega

/-- Pushing a freshly allocated instance onto `initModules` (as `set` does)
preserves allocation sanity. -/
theorem wellAlloc_push_init (app : App) (c : Nat) (args : List Nat)
    (hw : wellAlloc app) :
    wellAlloc ⟨app.initModules ++ [⟨app.nextAlloc, c, args⟩], app.modules,
               app.nextAlloc + 1⟩ := by
  refine ⟨?_, ?_⟩
  · intro i hi
    show i.allocId < app.nextAlloc + 1
    simp only [List.append_assoc, List.singleton_append, List.mem_append,
      List.mem_cons] at hi
    rcases hi with h | h | h
    · have := hw.1 i (by simp [h]); omega
    · subst h; exact Nat.lt_succ_self _
    · have := hw.1 i (by simp [h]); omega
  · show (((app.initModules ++ [(⟨app.nextAlloc, c, args⟩ : Instance)])
        ++ app.modules).map Instance.allocId).Nodup
    rw [List.append_assoc, List.singleton_append, List.map_append,
      List.map_cons, List.nodup_middle, List.nodup_cons, ← List.map_append]
    exact ⟨fresh_not_mem_allocIds app hw, hw.2⟩

/-- Pushing a freshly allocated instance onto `modules` (as `use` does)
preserves allocation sanity. -/
theorem wellAlloc_push_modules (app : App) (c : Nat) (args : List Nat)
    (hw : wellAlloc app) :
    wellAlloc ⟨app.initModules, app.modules ++ [⟨app.nextAlloc, c, args⟩],
               app.nextAlloc + 1⟩ := by
  refine ⟨?_, ?_⟩
  · intro i hi
    show i.allocId < app.nextAlloc + 1
    simp only [List.mem_append, List.mem_singleton] at hi
    rcases hi with h | h | h
    · have := hw.1 i (by simp [h]); omega
    · have := hw.1 i (by simp [h]); omega
    · subst h; exact Nat.lt_succ_self _
  · show ((app.initModules ++ (app.modules ++ [(⟨app.nextAlloc, c, args⟩ : Instance)])).map
        Instance.allocId).Nodup
    rw [← List.append_assoc, List.map_append, List.map_cons, List.map_nil,
      List.nodup_middle, List.nodup_cons]
    refine ⟨?_, ?_⟩
    · simpa using fresh_not_mem_allocIds app hw
    · simpa using hw.2

/-- No two registered instances coincide across the two sequences: a regular
module is never also an init module. -/
theorem not_mem_both_sequences (app : App) (hw : wellAlloc app) (i : Instance)
    (h1 : i ∈ app.initModules) (h2 : i ∈ app.modules) : False := by
  have hnd := hw.2
  rw [List.map_append, List.nodup_append] at hnd
  exact hnd.2.2 (List.mem_map_of_mem _ h1) (List.mem_map_of_mem _ h2)

/-- One registration command preserves allocation sanity, only extends
`initModules`, and every entry-point invocation in its trace is of an
instance that ends up in `initModules`. -/
theorem execCmd_preserves_inv (env : Env) (app : App) (cmd : Cmd)
    (hw : wellAlloc app) :
    wellAlloc (execCmd env app cmd).app
      ∧ app.initModules <+: (execCmd env app cmd).app.initModules
      ∧ ∀ i, Event.entryInvoked i ∈ (execCmd env app cmd).trace
          → i ∈ (execCmd env app cmd).app.initModules := by
  cases cmd with
  | use c args =>
    cases hc : env.ctorThrows c args with
    | some e =>
      refine ⟨?_, ?_, ?_⟩ <;> simp [execCmd, Application.use, hc]
      exact hw
    | none =>
      refine ⟨?_, ?_, ?_⟩
      · simpa [execCmd, Application.use, hc] using
          wellAlloc_push_modules app c args hw
      · simp [execCmd, Application.use, hc]
      · intro i hi
        simp [execCmd, Application.use, hc] at hi
  | set c args =>
    cases hc : env.ctorThrows c args with
    | some e =>
      refine ⟨?_, ?_, ?_⟩ <;> simp [execCmd, Application.set, hc]
      exact hw
    | none =>
      refine ⟨?_, ?_, ?_⟩
      · simpa [execCmd, Application.set, hc] using
          wellAlloc_push_init app c args hw
      · simp [execCmd, Application.set, hc]
      · intro i hi
        simp [execCmd, Application.set, hc] at hi ⊢
        subst hi
        simp

/-- A registration-phase program preserves allocation sanity, only extends
`initModules`, and every entry-point invocation in its trace is of an
instance that ends up in `initModules` of the final state. -/
theorem execCmds_preserves_inv (env : Env) (app : App) (prog : List Cmd)
    (hw : wellAlloc app) :
    wellAlloc (execCmds env app prog).app
      ∧ app.initModules <+: (execCmds env app prog).app.initModules
      ∧ ∀ i, Event.entryInvoked i ∈ (execCmds env app prog).trace
          → i ∈ (execCmds env app prog).app.initModules := by
  induction prog generalizing app with
  | nil =>
    refine ⟨hw, List.prefix_refl _, ?_⟩
    intro i hi
    simp [execCmds] at hi
  | cons cmd rest ih =>
    obtain ⟨hw1, hp1, ht1⟩ := execCmd_preserves_inv env app cmd hw
    cases herr : (execCmd env app cmd).error with
    | some e =>
      refine ⟨?_, ?_, ?_⟩ <;> simp only [execCmds, herr]
      · exact hw1
      · exact hp1
      · exact ht1
    | none =>
      obtain ⟨hw2, hp2, ht2⟩ := ih (execCmd env app cmd).app hw1
      refine ⟨?_, ?_, ?_⟩ <;> simp only [execCmds, herr]
      · exact hw2
      · exact hp1.trans hp2
      · intro i hi
        rw [List.mem_append] at hi
        rcases hi with h | h
        · exact hp2.subset (ht1 i h)
        · exact ht2 i h

/-- C1: for a `set(C, ...args)` call whose constructor is synchronous (does
not throw), by the time `set` returns the newly constructed instance has been
appended to `initModules` and its entry point `default()` has been invoked
exactly once (the trace of the call holds exactly one invocation event for
it). -/
theorem set_appends_and_invokes_once (env : Env) (app : App) (c : Nat)
    (args : List Nat) (hc : env.ctorThrows c args = none) :
    (Application.set env app c args).app.initModules
        = app.initModules ++ [⟨app.nextAlloc, c, args⟩]
      ∧ (Application.set env app c args).trace.count
          (Event.entryInvoked ⟨app.nextAlloc, c, args⟩) = 1 := by
  simp [Application.set, hc, List.count_cons]

/-- Witness for C1 at a concrete input. -/
theorem set_appends_and_invokes_once_witness :
    (Application.set envOk App.mkNew 5 [1]).app.initModules
        = App.mkNew.initModules ++ [⟨App.mkNew.nextAlloc, 5, [1]⟩]
      ∧ (Application.set envOk App.mkNew 5 [1]).trace.count
          (Event.entryInvoked ⟨App.mkNew.nextAlloc, 5, [1]⟩) = 1 :=
  set_appends_and_invokes_once envOk App.mkNew 5 [1] rfl

/-- C4: serializing a `File` document to a plain object (`toObject`) or JSON
(`toJSON`) yields an `id` field equal to the document's original internal
identifier `_id`, and the result carries no `_id` field. -/
theorem file_serialization_renames_internal_id (d : FileDocument) :
    d.toObject.id = some d._id ∧ d.toObject._id = none
      ∧ d.toJSON.id = some d._id ∧ d.toJSON._id = none := by
  simp [FileDocument.toObject, FileDocument.toJSON, toPrettyObject,
    FileDocument.rawObject]

/-- C8: `exit(code)` terminates the process with status `code` for every
number `code`, and `exit()` with no argument terminates with status `0`. -/
theorem exit_status_is_code_or_zero (code : Int) :
    Application.exit (some code) = code ∧ Application.exit none = 0 := by
  refine ⟨?_, rfl⟩
  by_cases h : code = 0 <;> simp [Application.exit, h]

/-- C9: `set` is not atomic on entry-point failure — when the constructor
succeeds but `default()` throws `e`, the instance has already been appended
to `initModules`, so after the error propagates it remains registered. -/
theorem set_registration_not_rolled_back (env : Env) (app : App) (c : Nat)
    (args : List Nat) (e : Nat) (hc : env.ctorThrows c args = none)
    (hd : env.defaultThrows ⟨app.nextAlloc, c, args⟩ = some e) :
    (Application.set env app c args).app.initModules
        = app.initModules ++ [⟨app.nextAlloc, c, args⟩]
      ∧ (Application.set env app c args).error = some e := by
  simp [Application.set, hc, hd]

/-- Witness for C9: constructor `2` succeeds but its `default()` throws `8`. -/
theorem set_registration_not_rolled_back_witness :
    (Application.set envThrow App.mkNew 2 []).app.initModules
        = App.mkNew.initModules ++ [⟨App.mkNew.nextAlloc, 2, []⟩]
      ∧ (Application.set envThrow App.mkNew 2 []).error = some 8 :=
  set_registration_not_rolled_back envThrow App.mkNew 2 [] 8 rfl rfl

/-- C5 counterexample: a controller whose `path` field is set to the empty
string produces a router whose prefix is `"/"`, not the `path` value — so the
claim "the prefix equals the controller's path field whenever that field is
set" is false as stated. -/
theorem build_empty_path_counterexample :
    ¬ (∀ (ctrl : BaseController) (n : Nat) (p : String),
        ctrl.path = some p → ((ctrl.build n).1).mountPath = p) := by
  intro h
  have h0 := h ⟨some "", none⟩ 0 "" rfl
  simp [BaseController.build, jsStringOr] at h0

/-- C5 (amended): `build()` returns a fresh router whose prefix equals the
controller's `path` when that field is set to a nonempty string, and equals
`"/"` when `path` is unset or set to the empty string (which is falsy under
the JS `||` in the source); repeated calls yield distinct routing objects
with the same prefix. -/
theorem build_fresh_router_prefixed (ctrl ctrl2 ctrl3 : BaseController)
    (n m k : Nat) (p : String) (hp : ctrl.path = some p) (hne : p ≠ "")
    (h2 : ctrl2.path = none) (h3 : ctrl3.path = some "") :
    ((ctrl.build n).1).mountPath = p
      ∧ ((ctrl.build (ctrl.build n).2).1).mountPath = p
      ∧ ((ctrl.build n).1).allocId ≠ ((ctrl.build (ctrl.build n).2).1).allocId
      ∧ ((ctrl2.build m).1).mountPath = "/"
      ∧ ((ctrl3.build k).1).mountPath = "/" := by
  refine ⟨?_, ?_, ?_, ?_, ?_⟩ <;>
    simp [BaseController.build, jsStringOr, hp, hne, h2, h3]

/-- Witness for C5 at a concrete controller. -/
theorem build_fresh_router_prefixed_witness :
    ((BaseController.mk (some "/users") none).build 0).1.mountPath = "/users"
      ∧ (((BaseController.mk (some "/users") none).build
            ((BaseController.mk (some "/users") none).build 0).2).1).mountPath
          = "/users"
      ∧ ((BaseController.mk (some "/users") none).build 0).1.allocId
          ≠ (((BaseController.mk (some "/users") none).build
                ((BaseController.mk (some "/users") none).build 0).2).1).allocId
      ∧ ((BaseController.mk none none).build 0).1.mountPath = "/"
      ∧ ((BaseController.mk (some "") none).build 0).1.mountPath = "/" :=
  build_fresh_router_prefixed ⟨some "/users", none⟩ ⟨none, none⟩
    ⟨some "", none⟩ 0 0 0 "/users" rfl (by decide) rfl rfl

/-- C7: the instance `use(C, ...args)` appends to the regular-module sequence
is the one the `Module` wrapper would construct — `new Module(C).default(...args)`
with the same constructor and the same arguments. -/
theorem use_refines_module_wrapper (env : Env) (app : App) (c : Nat)
    (args : List Nat) (hc : env.ctorThrows c args = none) :
    (Application.use env app c args).app.modules
        = app.modules ++ [(Module.mk c).default app.nextAlloc args]
      ∧ ((Module.mk c).default app.nextAlloc args).ctor = c
      ∧ ((Module.mk c).default app.nextAlloc args).args = args := by
  simp [Application.use, hc, Module.default]

/-- Witness for C7 at a concrete input. -/
theorem use_refines_module_wrapper_witness :
    (Application.use envOk App.mkNew 4 [2, 3]).app.modules
        = App.mkNew.modules ++ [(Module.mk 4).default App.mkNew.nextAlloc [2, 3]]
      ∧ ((Module.mk 4).default App.mkNew.nextAlloc [2, 3]).ctor = 4
      ∧ ((Module.mk 4).default App.mkNew.nextAlloc [2, 3]).args = [2, 3] :=
  use_refines_module_wrapper envOk App.mkNew 4 [2, 3] rfl

/-- C2: after a sequence of `use` registrations (none of whose constructors
throws) followed by one `run()` call (no entry point throwing), the run trace
invokes exactly the registered modules, in registration order (the modules
correspond one-to-one, in order, to the requested constructor/argument
pairs), each exactly once (the trace has no duplicate events), and `run`
returns normally. -/
theorem run_invokes_each_module_once_in_order (env : Env)
    (reqs : List (Nat × List Nat))
    (hctor : ∀ r ∈ reqs, env.ctorThrows r.1 r.2 = none)
    (hdef : ∀ i, env.defaultThrows i = none) :
    (Application.run env
        (execCmds env App.mkNew (reqs.map fun r => Cmd.use r.1 r.2)).app).trace
      = ((execCmds env App.mkNew
            (reqs.map fun r => Cmd.use r.1 r.2)).app.modules).map
          Event.entryInvoked
    ∧ ((execCmds env App.mkNew
          (reqs.map fun r => Cmd.use r.1 r.2)).app.modules).map
        (fun i => (i.ctor, i.args)) = reqs
    ∧ (Application.run env
        (execCmds env App.mkNew
          (reqs.map fun r => Cmd.use r.1 r.2)).app).trace.Nodup
    ∧ (Application.run env
        (execCmds env App.mkNew
          (reqs.map fun r => Cmd.use r.1 r.2)).app).error = none := by
  have happ := execCmds_useAll env App.mkNew reqs hctor
  have hrun := runModules_all_ok env (allocFrom 0 reqs) (fun i _ => hdef i)
  have hinj : Function.Injective Event.entryInvoked := by
    intro a b hab
    injection hab
  refine ⟨?_, ?_, ?_, ?_⟩
  · rw [happ]; simp [App.mkNew, Application.run, hrun]
  · rw [happ]; simp [App.mkNew, allocFrom_ctor_args]
  · rw [happ]
    simpa [App.mkNew, Application.run, hrun] using
      ((allocFrom_nodup 0 reqs).of_map).map hinj
  · rw [happ]; simp [App.mkNew, Application.run, hrun]

/-- Witness for C2 at a concrete registration sequence. -/
theorem run_invokes_each_module_once_in_order_witness :
    (Application.run envOk
        (execCmds envOk App.mkNew
          ([(4, []), (5, [6])].map fun r => Cmd.use r.1 r.2)).app).trace
      = ((execCmds envOk App.mkNew
            ([(4, []), (5, [6])].map fun r => Cmd.use r.1 r.2)).app.modules).map
          Event.entryInvoked
    ∧ ((execCmds envOk App.mkNew
          ([(4, []), (5, [6])].map fun r => Cmd.use r.1 r.2)).app.modules).map
        (fun i => (i.ctor, i.args)) = [(4, []), (5, [6])]
    ∧ (Application.run envOk
        (execCmds envOk App.mkNew
          ([(4, []), (5, [6])].map fun r => Cmd.use r.1 r.2)).app).trace.Nodup
    ∧ (Application.run envOk
        (execCmds envOk App.mkNew
          ([(4, []), (5, [6])].map fun r => Cmd.use r.1 r.2)).app).error = none :=
  run_invokes_each_module_once_in_order envOk [(4, []), (5, [6])]
    (by intro r _; rfl) (fun i => rfl)

/-- C3: `use` itself never invokes an entry point (its trace holds no
invocation event, only the constructor call), and after any registration-phase
program (any sequence of `use`/`set` calls, before `run()` is invoked) no
module of the regular-module sequence has had its entry point invoked. -/
theorem use_never_invokes_before_run (env : Env) (app : App) (c : Nat)
    (args : List Nat) (prog : List Cmd) :
    (∀ i, Event.entryInvoked i ∉ (Application.use env app c args).trace)
      ∧ ∀ i ∈ (execCmds env App.mkNew prog).app.modules,
          Event.entryInvoked i ∉ (execCmds env App.mkNew prog).trace := by
  constructor
  · intro i hi
    cases hc : env.ctorThrows c args <;>
      simp [Application.use, hc] at hi
  · intro i him hit
    have hw0 : wellAlloc App.mkNew := by
      refine ⟨?_, ?_⟩ <;> simp [App.mkNew]
    obtain ⟨hw, _, htr⟩ := execCmds_preserves_inv env App.mkNew prog hw0
    exact not_mem_both_sequences _ hw i (htr i hit) him

/-- C6: none of `use`, `set`, `run` catches or transforms an exception raised
by a module constructor or a synchronous entry point — the exact error value
thrown reaches the caller: a constructor throwing `e1` makes both `use` and
`set` propagate `e1` (with the state unchanged); an entry point throwing `e2`
during `set` makes `set` propagate `e2`; during `run`, the first throwing
entry point's error `e3` propagates. -/
theorem errors_propagate_unchanged (env : Env) (app app2 : App)
    (c1 c2 : Nat) (a1 a2 : List Nat) (e1 e2 e3 : Nat)
    (pre post : List Instance) (m : Instance)
    (h1 : env.ctorThrows c1 a1 = some e1)
    (h2 : env.ctorThrows c2 a2 = none)
    (h3 : env.defaultThrows ⟨app.nextAlloc, c2, a2⟩ = some e2)
    (hmods : app2.modules = pre ++ m :: post)
    (h4 : ∀ x ∈ pre, env.defaultThrows x = none)
    (h5 : env.defaultThrows m = some e3) :
    (Application.use env app c1 a1).error = some e1
      ∧ (Application.use env app c1 a1).app = app
      ∧ (Application.set env app c1 a1).error = some e1
      ∧ (Application.set env app c1 a1).app = app
      ∧ (Application.set env app c2 a2).error = some e2
      ∧ (Application.run env app2).error = some e3 := by
  refine ⟨?_, ?_, ?_, ?_, ?_, ?_⟩ <;>
    simp [Application.use, Application.set, Application.run, h1, h2, h3,
      hmods, runModules_stops_at_throw env pre m post e3 h4 h5]

/-- Witness for C6: constructor `1` throws `7`; constructor `3`'s instance
throws `9` from `default()`; in `run`, after one successful module the
instance of constructor `2` throws `8`. -/
theorem errors_propagate_unchanged_witness :
    (Application.use envThrow App.mkNew 1 []).error = some 7
      ∧ (Application.use envThrow App.mkNew 1 []).app = App.mkNew
      ∧ (Application.set envThrow App.mkNew 1 []).error = some 7
      ∧ (Application.set envThrow App.mkNew 1 []).app = App.mkNew
      ∧ (Application.set envThrow App.mkNew 3 []).error = some 9
      ∧ (Application.run envThrow
            ⟨[], [⟨0, 0, []⟩, ⟨1, 2, []⟩], 2⟩).error = some 8 :=
  errors_propagate_unchanged envThrow App.mkNew ⟨[], [⟨0, 0, []⟩, ⟨1, 2, []⟩], 2⟩
    1 3 [] [] 7 9 8 [⟨0, 0, []⟩] [] ⟨1, 2, []⟩
    rfl rfl rfl rfl (by decide) rfl

/-- C10: each operation leaves the sequence it does not target unchanged —
`use` appends one element to `modules` and leaves `initModules` unchanged;
`set` appends one element to `initModules` and leaves `modules` unchanged;
`run` modifies neither sequence, so a second `run()` call invokes every
regular module's entry point again (its trace equals the first one's and,
when no entry point throws, lists every module in order). -/
theorem operations_frame_conditions (env : Env) (app : App)
    (c1 c2 : Nat) (a1 a2 : List Nat)
    (hc1 : env.ctorThrows c1 a1 = none)
    (hc2 : env.ctorThrows c2 a2 = none)
    (hd : ∀ i, env.defaultThrows i = none) :
    (Application.use env app c1 a1).app.initModules = app.initModules
      ∧ (Application.use env app c1 a1).app.modules
          = app.modules ++ [⟨app.nextAlloc, c1, a1⟩]
      ∧ (Application.set env app c2 a2).app.modules = app.modules
      ∧ (Application.set env app c2 a2).app.initModules
          = app.initModules ++ [⟨app.nextAlloc, c2, a2⟩]
      ∧ (Application.run env app).app = app
      ∧ (Application.run env ((Application.run env app).app)).trace
          = (Application.run env app).trace
      ∧ (Application.run env app).trace = app.modules.map Event.entryInvoked := by
  refine ⟨?_, ?_, ?_, ?_, ?_, ?_, ?_⟩ <;>
    simp [Application.use, Application.set, Application.run, hc1, hc2,
      runModules_all_ok env app.modules (fun i _ => hd i)]

/-- Witness for C10 at a concrete application state. -/
theorem operations_frame_conditions_witness :
    (Application.use envOk ⟨[⟨0, 9, []⟩], [⟨1, 4, []⟩], 2⟩ 5 []).app.initModules
        = [⟨0, 9, []⟩]
      ∧ (Application.use envOk ⟨[⟨0, 9, []⟩], [⟨1, 4, []⟩], 2⟩ 5 []).app.modules
          = [⟨1, 4, []⟩] ++ [⟨2, 5, []⟩]
      ∧ (Application.set envOk ⟨[⟨0, 9, []⟩], [⟨1, 4, []⟩], 2⟩ 6 []).app.modules
          = [⟨1, 4, []⟩]
      ∧ (Application.set envOk ⟨[⟨0, 9, []⟩], [⟨1, 4, []⟩], 2⟩ 6 []).app.initModules
          = [⟨0, 9, []⟩] ++ [⟨2, 6, []⟩]
      ∧ (Application.run envOk ⟨[⟨0, 9, []⟩], [⟨1, 4, []⟩], 2⟩).app
          = ⟨[⟨0, 9, []⟩], [⟨1, 4, []⟩], 2⟩
      ∧ (Application.run envOk
            ((Application.run envOk ⟨[⟨0, 9, []⟩], [⟨1, 4, []⟩], 2⟩).app)).trace
          = (Application.run envOk ⟨[⟨0, 9, []⟩], [⟨1, 4, []⟩], 2⟩).trace
      ∧ (Application.run envOk ⟨[⟨0, 9, []⟩], [⟨1, 4, []⟩], 2⟩).trace
          = [⟨1, 4, []⟩].map Event.entryInvoked := by
  have h := operations_frame_conditions envOk ⟨[⟨0, 9, []⟩], [⟨1, 4, []⟩], 2⟩
    5 6 [] [] rfl rfl (fun i => rfl)
  simpa using h

end SimpleApi
